import Mathlib

/-!
Shallow embedding of the glog rotating log-file writer.

The Go source is one package: a `RotateLog` struct holding the configuration
and runtime state (active file handle, current size), a `Write` method that
rotates the active file into a timestamped backup when the size threshold is
reached, and a maintenance pass (`millRunOnce`) that classifies existing
backups for removal and compression and executes the file operations.

The filesystem is modelled as an association list from paths to files; a file
carries its byte content and a flag `canAppend` modelling whether an
append-mode open of it succeeds (the file-mode/permission aspect the code
observes).  Time is modelled as integer ticks; the backup time format is
modelled as rendering the tick, which preserves everything the code relies on.
-/

set_option autoImplicit false

namespace Glog

/-- Content model of a file together with whether an append-mode open of it
succeeds (the only aspect of its mode the code branches on). -/
structure GoFile where
  content : List Nat
  canAppend : Bool
deriving DecidableEq

/-- The filesystem: an association list from path to file. -/
abbrev FS := List (String × GoFile)

def fsLookup : FS → String → Option GoFile
  | [], _ => none
  | (k, f) :: t, n => if k = n then some f else fsLookup t n

def fsErase : FS → String → FS
  | [], _ => []
  | (k, f) :: t, n => if k = n then fsErase t n else (k, f) :: fsErase t n

def fsInsert (fs : FS) (n : String) (f : GoFile) : FS :=
  (n, f) :: fsErase fs n

/-- Configuration fields of the source struct `RotateLog` (the runtime fields
`size`, `file`, `millCh` live in `WState` below). -/
structure RotateLog where
  Filename : String
  MaxBackUps : Nat
  MaxSize : Nat
  MaxAge : Nat
  RotateByTimeOrSize : String
  Compress : Bool
  LocalTime : Bool
deriving DecidableEq

def megabyte : Nat := 1024 * 1024

def defaultMaxSize : Nat := 100

def compressSuffix : String := ".gz"

/-- Source `max()`: maximum size in bytes before rolling. -/
def RotateLog.max (r : RotateLog) : Nat :=
  if r.MaxSize = 0 then defaultMaxSize * megabyte else r.MaxSize * megabyte

/-- Process environment consulted by `filename()`: the base name of
`os.Args[0]` and `os.TempDir()`. -/
structure Env where
  args0Base : String
  tempDir : String
deriving DecidableEq

/-- Runtime state of a writer: the filesystem, whether `r.file` is non-nil,
the recorded size `r.size`, the current clock tick, and two instrumentation
counters observing rotations and maintenance signals. -/
structure WState where
  fs : FS
  fileOpen : Bool
  size : Nat
  clock : Nat
  rotations : Nat
  millSignals : Nat
deriving DecidableEq

/-- Model of Go `filepath.Dir` on the slash-separated paths the code builds
(no trailing-slash cleaning, which the code never produces). -/
def filepathDir (p : String) : String :=
  let cs := p.toList
  if cs.contains '/' then
    let pre := ((cs.reverse.dropWhile (fun c => c ≠ '/')).tail).reverse
    if pre = [] then "/" else String.mk pre
  else "."

/-- Model of Go `filepath.Ext`: the suffix from the final dot of the final
path element, empty if that element has no dot. -/
def filepathExt (p : String) : String :=
  let seg := p.toList.reverse.takeWhile (fun c => c ≠ '/')
  if seg.contains '.' then String.mk ('.' :: (seg.takeWhile (fun c => c ≠ '.')).reverse)
  else ""

/-- Model of Go `filepath.Base` on nonempty slash-separated paths. -/
def filepathBase (p : String) : String :=
  if p = "" then "." else String.mk (p.toList.reverse.takeWhile (fun c => c ≠ '/')).reverse

/-- Model of Go `filepath.Join` on the two-argument uses in the code. -/
def filepathJoin (d file : String) : String :=
  if d = "" then file else if d = "." then file else d ++ "/" ++ file

/-- Model of `t.Format(defaultBackupTimeFormat)` after the optional UTC
conversion: the zone choice only changes the rendering of the same instant,
so both render the tick. -/
def formatTime (useLocal : Bool) (t : Nat) : String :=
  toString t

/-- Source `filename()`: the configured name, or a name derived from the
process name inside the temp directory when unset. -/
def filename (fname : String) (env : Env) : String :=
  if fname ≠ "" then fname
  else filepathJoin env.tempDir (env.args0Base ++ "_rotate.log")

/-- Source `dir()`: note it takes `filepath.Dir` of the raw `Filename` field,
not of `filename()`. -/
def RotateLog.dir (r : RotateLog) : String :=
  filepathDir r.Filename

/-- Source `backupName`: insert the formatted timestamp between the file name
and its extension. -/
def backupName (name : String) (useLocal : Bool) (t : Nat) : String :=
  let d := filepathDir name
  let fname := filepathBase name
  let ext := filepathExt name
  let pre := fname.dropRight ext.length
  filepathJoin d (pre ++ "-" ++ formatTime useLocal t ++ ext)

/-- Source `openNew`: rename any existing file at the base path to its backup
name (keeping its mode), then create a fresh empty file there; the size
counter resets to zero. -/
def openNew (r : RotateLog) (env : Env) (s : WState) : WState :=
  let name := filename r.Filename env
  match fsLookup s.fs name with
  | some f =>
      let newName := backupName name r.LocalTime s.clock
      let fs₁ := fsInsert (fsErase s.fs name) newName f
      { s with fs := fsInsert fs₁ name ⟨[], f.canAppend⟩, fileOpen := true, size := 0 }
  | none =>
      { s with fs := fsInsert s.fs name ⟨[], true⟩, fileOpen := true, size := 0 }

/-- Source `rotate`: close the current file, open a new one, signal the
maintenance worker.  The `rotations` counter observes that a rotation
happened. -/
def rotate (r : RotateLog) (env : Env) (s : WState) : WState :=
  let s₁ := { s with fileOpen := false }
  let s₂ := openNew r env s₁
  { s₂ with rotations := s₂.rotations + 1, millSignals := s₂.millSignals + 1 }

/-- Source `openExistingOrNew`: signal maintenance; create the file if absent;
rotate if the existing size plus the pending write reaches the maximum
(source comparison is `>=`); otherwise open in append mode adopting the
existing size, falling back to a fresh file when the append open fails. -/
def openExistingOrNew (r : RotateLog) (env : Env) (s : WState) (writeLen : Nat) : WState :=
  let s₀ := { s with millSignals := s.millSignals + 1 }
  let name := filename r.Filename env
  match fsLookup s₀.fs name with
  | none => openNew r env s₀
  | some f =>
      if r.max ≤ f.content.length + writeLen then rotate r env s₀
      else if f.canAppend then { s₀ with fileOpen := true, size := f.content.length }
      else openNew r env s₀

inductive WErr where
  | oversized
deriving DecidableEq

/-- Source `Write`: reject a payload longer than the maximum; open the file if
none is open; rotate first when the recorded size plus the payload length
would exceed the maximum; append the payload and advance the size counter. -/
def Write (r : RotateLog) (env : Env) (s : WState) (p : List Nat) :
    (Nat × Option WErr) × WState :=
  let writeLen := p.length
  if r.max < writeLen then ((0, some WErr.oversized), s)
  else
    let s₁ := if s.fileOpen then s else openExistingOrNew r env s writeLen
    let s₂ := if r.max < s₁.size + writeLen then rotate r env s₁ else s₁
    let name := filename r.Filename env
    let fs' :=
      match fsLookup s₂.fs name with
      | some f => fsInsert s₂.fs name ⟨f.content ++ p, f.canAppend⟩
      | none => fsInsert s₂.fs name ⟨p, true⟩
    ((writeLen, none), { s₂ with fs := fs', size := s₂.size + writeLen })

/-- Model of Go `strings.HasSuffix`, computed on character lists so that it
evaluates by kernel reduction. -/
def strEndsWith (s post : String) : Bool :=
  post.toList.isSuffixOf s.toList

/-- A recognized backup as produced by `oldLogFiles`: its file name and the
timestamp parsed from the name. -/
structure LogInfo where
  name : String
  timestamp : Int
deriving DecidableEq

def nsHour : Int := 3600000000000

/-- One step of the count-based eviction walk of `millRunOnce` (lines
252-266): accumulator is (preserved logical names, remove list, remaining
list).  The source computes the remaining list but never uses it. -/
def countStep (maxB : Nat) (acc : List String × List LogInfo × List LogInfo)
    (f : LogInfo) : List String × List LogInfo × List LogInfo :=
  let fn := if strEndsWith f.name compressSuffix then
      f.name.dropRight compressSuffix.length
    else f.name
  let preserved := if acc.1.contains fn then acc.1 else fn :: acc.1
  if maxB < preserved.length then (preserved, acc.2.1 ++ [f], acc.2.2)
  else (preserved, acc.2.1, acc.2.2 ++ [f])

/-- Classification part of `millRunOnce` (lines 238-289): from the sorted
backup list, the files marked for removal and for compression.  Faithful
points: the guard tests `MaxSize` (not `MaxBackUps`); the count block leaves
`files` unchanged (its remaining list is discarded); the age block replaces
`files` by the survivors; compression candidates are drawn from the possibly
age-filtered `files`. -/
def millMarks (r : RotateLog) (now : Int) (files₀ : List LogInfo) :
    List LogInfo × List LogInfo :=
  if r.MaxSize = 0 ∧ r.MaxAge = 0 ∧ r.Compress = false then ([], [])
  else
    let removeCount :=
      if 0 < r.MaxBackUps ∧ r.MaxBackUps < files₀.length then
        (files₀.foldl (countStep r.MaxBackUps) ([], [], [])).2.1
      else []
    let cutOff := now - 24 * nsHour * (r.MaxAge : Int)
    let removeAge :=
      if 0 < r.MaxAge then files₀.filter (fun f => decide (f.timestamp < cutOff))
      else []
    let files₁ :=
      if 0 < r.MaxAge then files₀.filter (fun f => !decide (f.timestamp < cutOff))
      else files₀
    let compress :=
      if r.Compress then files₁.filter (fun f => !strEndsWith f.name compressSuffix)
      else []
    (removeCount ++ removeAge, compress)

/-- First-error accumulation of `millRunOnce` (lines 293-295, 301-303): a new
error is kept only while no earlier error was recorded. -/
def accErr (err e : Option String) : Option String :=
  match err with
  | none => e
  | some x => some x

/-- One execution loop of `millRunOnce` over a list of file names, given an
oracle for each operation's outcome; returns the threaded error and the
operations attempted, in order. -/
def runOps (res : String → Option String) (acc : Option String × List String)
    (names : List String) : Option String × List String :=
  names.foldl (fun a n => (accErr a.1 (res n), a.2 ++ [n])) acc

/-- Execution part of `millRunOnce` (lines 291-306): all removals, then all
compressions, threading the first error. -/
def millExec (removeRes compressRes : String → Option String)
    (remove compress : List String) : Option String × List String :=
  runOps compressRes (runOps removeRes (none, []) remove) compress

/-- Effect of one maintenance pass on the recognized-backup set, all feasible
operations succeeding: marked files are removed by name; compression of a
still-present candidate creates the sibling `.gz` entry (the source keeps the
uncompressed source file); compression of an already-removed candidate fails
and creates nothing. -/
def millExecFiles (files remove compress : List LogInfo) : List LogInfo :=
  let kept := files.filter (fun f => !remove.any (fun g => g.name == f.name))
  kept ++ (compress.filter (fun f => kept.any (fun g => g.name == f.name))).map
      (fun f => ⟨f.name ++ compressSuffix, f.timestamp⟩)

/-- Model of the gzip encoding produced by the external `compress/gzip`
writer: an injective encoding of the content. -/
def gzipC (l : List Nat) : List Nat :=
  31 :: 139 :: l

/-- The step of `compressLogFile` at which the failure oracle makes an
operation fail. -/
inductive CStep where
  | openDst
  | copy
  | gzClose
  | gzfClose
  | fClose
deriving DecidableEq

/-- Source `compressLogFile` (lines 367-410).  Faithful points: the function
never removes `src` (there is no remove call on the success path); the
deferred cleanup tests the outer `err`, which is nil at every point after the
destination is created because the later failures assign a shadowed `err`
declared inside each `if`, so the partially written `dst` is never removed
and the failure is returned unwrapped. -/
def compressLogFile (fs : FS) (src dst : String) (fail : Option CStep) :
    FS × Option String :=
  match fsLookup fs src with
  | none => (fs, some "failed to open log file")
  | some f =>
    if fail = some CStep.openDst then (fs, some "failed to open compressed log file")
    else
      let fs₁ := fsInsert fs dst ⟨[], f.canAppend⟩
      if fail = some CStep.copy then (fs₁, some "copy error")
      else if fail = some CStep.gzClose then (fs₁, some "gzip close error")
      else
        let fs₂ := fsInsert fs₁ dst ⟨gzipC f.content, f.canAppend⟩
        if fail = some CStep.gzfClose then (fs₂, some "compressed file close error")
        else if fail = some CStep.fClose then (fs₂, some "source close error")
        else (fs₂, none)

theorem fsLookup_fsInsert_self (fs : FS) (n : String) (f : GoFile) :
    fsLookup (fsInsert fs n f) n = some f := by
  simp [fsInsert, fsLookup]

/-- Claim C2: a payload whose length alone exceeds the configured maximum size
is rejected synchronously: `Write` returns an error and a byte count of zero,
writes nothing, performs no rotation, and leaves the writer state unchanged. -/
theorem write_oversized_rejected (r : RotateLog) (env : Env) (s : WState) (p : List Nat)
    (h : r.max < p.length) :
    Write r env s p = ((0, some WErr.oversized), s) := by
  unfold Write
  simp [h]

/-- Witness for C2 at a concrete oversized payload. -/
theorem write_oversized_rejected_witness :
    Write ⟨"app.log", 0, 1, 0, "", false, false⟩ ⟨"app", "/tmp"⟩
        ⟨[("app.log", ⟨[1, 2], true⟩)], true, 2, 5, 0, 0⟩ (List.replicate (megabyte + 1) 0)
      = ((0, some WErr.oversized), ⟨[("app.log", ⟨[1, 2], true⟩)], true, 2, 5, 0, 0⟩) :=
  write_oversized_rejected _ _ _ _ (by
    rw [List.length_replicate]
    norm_num [RotateLog.max, megabyte])

/-- Claim C1: for a write that fits, with a file open and present, bytes
accumulate in the active file; a rotation occurs before the write exactly when
the recorded size plus the payload length would exceed the maximum; afterwards
the size counter has advanced by exactly the bytes written. -/
theorem write_accumulates (r : RotateLog) (env : Env) (s : WState) (p : List Nat) (f : GoFile)
    (hfit : p.length ≤ r.max)
    (hopen : s.fileOpen = true)
    (hfile : fsLookup s.fs (filename r.Filename env) = some f) :
    (Write r env s p).1 = (p.length, none) ∧
    (Write r env s p).2.rotations
      = s.rotations + (if r.max < s.size + p.length then 1 else 0) ∧
    (Write r env s p).2.size
      = (if r.max < s.size + p.length then 0 else s.size) + p.length ∧
    (Write r env s p).2.fileOpen = true ∧
    fsLookup (Write r env s p).2.fs (filename r.Filename env)
      = some ⟨(if r.max < s.size + p.length then [] else f.content) ++ p, f.canAppend⟩ := by
  have hnot : ¬ r.max < p.length := not_lt.mpr hfit
  by_cases hrot : r.max < s.size + p.length
  · unfold Write rotate openNew
    simp [hnot, hopen, hrot, hfile, fsLookup_fsInsert_self]
  · unfold Write
    simp [hnot, hopen, hrot, hfile, fsLookup_fsInsert_self]

/-- Witness for C1 at a concrete non-rotating write. -/
theorem write_accumulates_witness :
    (Write ⟨"app.log", 0, 1, 0, "", false, false⟩ ⟨"app", "/tmp"⟩
        ⟨[("app.log", ⟨[1, 2], true⟩)], true, 2, 5, 0, 0⟩ [9]).1 = (1, none) ∧
    (Write ⟨"app.log", 0, 1, 0, "", false, false⟩ ⟨"app", "/tmp"⟩
        ⟨[("app.log", ⟨[1, 2], true⟩)], true, 2, 5, 0, 0⟩ [9]).2.rotations
      = 0 + (if (⟨"app.log", 0, 1, 0, "", false, false⟩ : RotateLog).max < 2 + 1 then 1 else 0) ∧
    (Write ⟨"app.log", 0, 1, 0, "", false, false⟩ ⟨"app", "/tmp"⟩
        ⟨[("app.log", ⟨[1, 2], true⟩)], true, 2, 5, 0, 0⟩ [9]).2.size
      = (if (⟨"app.log", 0, 1, 0, "", false, false⟩ : RotateLog).max < 2 + 1 then 0 else 2) + 1 ∧
    (Write ⟨"app.log", 0, 1, 0, "", false, false⟩ ⟨"app", "/tmp"⟩
        ⟨[("app.log", ⟨[1, 2], true⟩)], true, 2, 5, 0, 0⟩ [9]).2.fileOpen = true ∧
    fsLookup (Write ⟨"app.log", 0, 1, 0, "", false, false⟩ ⟨"app", "/tmp"⟩
        ⟨[("app.log", ⟨[1, 2], true⟩)], true, 2, 5, 0, 0⟩ [9]).2.fs
        (filename "app.log" ⟨"app", "/tmp"⟩)
      = some ⟨(if (⟨"app.log", 0, 1, 0, "", false, false⟩ : RotateLog).max < 2 + 1
          then [] else [1, 2]) ++ [9], true⟩ :=
  write_accumulates ⟨"app.log", 0, 1, 0, "", false, false⟩ ⟨"app", "/tmp"⟩
    ⟨[("app.log", ⟨[1, 2], true⟩)], true, 2, 5, 0, 0⟩ [9] ⟨[1, 2], true⟩
    (by decide) (by decide) (by decide)

/-- Claim C10: the `RotateByTimeOrSize` configuration field is never read:
`Write`, rotation, open-existing-or-new and the maintenance classification
give identical results for any two values of the field. -/
theorem rotateByTimeOrSize_never_read (fn : String) (mb ms ma : Nat) (v₁ v₂ : String)
    (cp lt : Bool) (env : Env) (s : WState) (p : List Nat) (wl : Nat) (now : Int)
    (files : List LogInfo) :
    Write ⟨fn, mb, ms, ma, v₁, cp, lt⟩ env s p = Write ⟨fn, mb, ms, ma, v₂, cp, lt⟩ env s p ∧
    rotate ⟨fn, mb, ms, ma, v₁, cp, lt⟩ env s = rotate ⟨fn, mb, ms, ma, v₂, cp, lt⟩ env s ∧
    openExistingOrNew ⟨fn, mb, ms, ma, v₁, cp, lt⟩ env s wl
      = openExistingOrNew ⟨fn, mb, ms, ma, v₂, cp, lt⟩ env s wl ∧
    millMarks ⟨fn, mb, ms, ma, v₁, cp, lt⟩ now files
      = millMarks ⟨fn, mb, ms, ma, v₂, cp, lt⟩ now files :=
  ⟨rfl, rfl, rfl, rfl⟩

theorem rotate_rotations (r : RotateLog) (env : Env) (s : WState) :
    (rotate r env s).rotations = s.rotations + 1 := by
  unfold rotate openNew
  cases h : fsLookup s.fs (filename r.Filename env) <;> simp [h]

theorem openExistingOrNew_rotates_of_ge (r : RotateLog) (env : Env) (s : WState) (wl : Nat)
    (f : GoFile) (h : fsLookup s.fs (filename r.Filename env) = some f)
    (hge : r.max ≤ f.content.length + wl) :
    (openExistingOrNew r env s wl).rotations = s.rotations + 1 := by
  unfold openExistingOrNew
  simp [h, hge, rotate_rotations]

theorem boundary_lookup :
    fsLookup [("app.log", (⟨List.replicate (megabyte - 1) 0, true⟩ : GoFile))]
      (filename "app.log" ⟨"app", "/tmp"⟩)
      = some ⟨List.replicate (megabyte - 1) 0, true⟩ := by
  simp [filename, fsLookup]

theorem boundary_reaches_max :
    (⟨"app.log", 0, 1, 0, "", false, false⟩ : RotateLog).max
      ≤ (GoFile.mk (List.replicate (megabyte - 1) 0) true).content.length + 1 := by
  rw [show (GoFile.mk (List.replicate (megabyte - 1) 0) true).content.length
      = megabyte - 1 from List.length_replicate _ _]
  norm_num [RotateLog.max, megabyte]

theorem boundary_not_over_max :
    (List.replicate (megabyte - 1) 0).length + 1
      ≤ (⟨"app.log", 0, 1, 0, "", false, false⟩ : RotateLog).max := by
  rw [List.length_replicate]
  norm_num [RotateLog.max, megabyte]

/-- Counterexample to C8 as stated: when the existing size plus the pending
write equals the maximum exactly (so it would not exceed it), the source still
rotates, because `openExistingOrNew` compares with `>=`. -/
theorem openExistingOrNew_rotates_at_exact_max :
    (List.replicate (megabyte - 1) 0).length + 1
        ≤ (⟨"app.log", 0, 1, 0, "", false, false⟩ : RotateLog).max ∧
    (openExistingOrNew ⟨"app.log", 0, 1, 0, "", false, false⟩ ⟨"app", "/tmp"⟩
        ⟨[("app.log", ⟨List.replicate (megabyte - 1) 0, true⟩)], false, 0, 5, 0, 0⟩ 1).rotations
      = 0 + 1 :=
  ⟨boundary_not_over_max,
   openExistingOrNew_rotates_of_ge _ _ _ _ ⟨List.replicate (megabyte - 1) 0, true⟩
     boundary_lookup boundary_reaches_max⟩

/-- Claim C8 (amended to the source's comparison): open-existing-or-new
creates a new file when the target is absent; rotates when the existing size
plus the pending write reaches or exceeds the maximum; otherwise opens in
append mode adopting the existing size; and falls back to a fresh file when
the append open fails. -/
theorem openExistingOrNew_branches (r : RotateLog) (env : Env) (s : WState) (wl : Nat) :
    (fsLookup s.fs (filename r.Filename env) = none →
        openExistingOrNew r env s wl
          = { s with fs := fsInsert s.fs (filename r.Filename env) ⟨[], true⟩,
                     fileOpen := true, size := 0, millSignals := s.millSignals + 1 }) ∧
    (∀ f, fsLookup s.fs (filename r.Filename env) = some f →
      (r.max ≤ f.content.length + wl →
          (openExistingOrNew r env s wl).rotations = s.rotations + 1) ∧
      (f.content.length + wl < r.max → f.canAppend = true →
          openExistingOrNew r env s wl
            = { s with fileOpen := true, size := f.content.length,
                       millSignals := s.millSignals + 1 }) ∧
      (f.content.length + wl < r.max → f.canAppend = false →
          (openExistingOrNew r env s wl).rotations = s.rotations ∧
          (openExistingOrNew r env s wl).fileOpen = true ∧
          (openExistingOrNew r env s wl).size = 0 ∧
          fsLookup (openExistingOrNew r env s wl).fs (filename r.Filename env)
            = some ⟨[], f.canAppend⟩)) := by
  constructor
  · intro h
    unfold openExistingOrNew openNew
    simp [h]
  · intro f h
    refine ⟨?_, ?_, ?_⟩
    · intro hge
      unfold openExistingOrNew rotate openNew
      simp [h, hge]
    · intro hlt hca
      have hn : ¬ r.max ≤ f.content.length + wl := not_le.mpr hlt
      unfold openExistingOrNew
      simp [h, hn, hca]
    · intro hlt hca
      have hn : ¬ r.max ≤ f.content.length + wl := not_le.mpr hlt
      unfold openExistingOrNew openNew
      simp [h, hn, hca, fsLookup_fsInsert_self]

/-- Witness for C8 at a concrete existing file whose size fits the write. -/
theorem openExistingOrNew_branches_witness :
    openExistingOrNew ⟨"app.log", 0, 1, 0, "", false, false⟩ ⟨"app", "/tmp"⟩
        ⟨[("app.log", ⟨[1, 2], true⟩)], false, 0, 5, 0, 0⟩ 1
      = ⟨[("app.log", ⟨[1, 2], true⟩)], true, 2, 5, 0, 1⟩ :=
  ((openExistingOrNew_branches ⟨"app.log", 0, 1, 0, "", false, false⟩ ⟨"app", "/tmp"⟩
      ⟨[("app.log", ⟨[1, 2], true⟩)], false, 0, 5, 0, 0⟩ 1).2 ⟨[1, 2], true⟩
      (by decide)).2.1 (by decide) rfl

/-- Claim C3 (code bug): after a successful compression the uncompressed
source file still exists (the source has no remove of `src`), and after a
failed copy the partially written compressed output still exists and the
failure is returned (the deferred cleanup tests a shadowed error). -/
theorem compressLogFile_keeps_src_and_partial :
    (compressLogFile [("app-1.log", ⟨[5, 6], true⟩)] "app-1.log" "app-1.log.gz" none).2
      = none ∧
    fsLookup (compressLogFile [("app-1.log", ⟨[5, 6], true⟩)] "app-1.log" "app-1.log.gz"
        none).1 "app-1.log.gz" = some ⟨gzipC [5, 6], true⟩ ∧
    fsLookup (compressLogFile [("app-1.log", ⟨[5, 6], true⟩)] "app-1.log" "app-1.log.gz"
        none).1 "app-1.log" = some ⟨[5, 6], true⟩ ∧
    (compressLogFile [("app-1.log", ⟨[5, 6], true⟩)] "app-1.log" "app-1.log.gz"
        (some CStep.copy)).2 ≠ none ∧
    fsLookup (compressLogFile [("app-1.log", ⟨[5, 6], true⟩)] "app-1.log" "app-1.log.gz"
        (some CStep.copy)).1 "app-1.log.gz" = some ⟨[], true⟩ := by
  decide

/-- Claim C4 (code bug): with a backup count of 1, compression enabled and two
uncompressed backups, the older backup is marked for removal by the count rule
and is nevertheless also selected for compression, because the count block's
filtered remaining list is discarded by the source. -/
theorem countMarked_still_compression_candidate :
    (⟨"app-8.log", 8⟩ : LogInfo) ∈ (millMarks ⟨"app.log", 1, 1, 0, "", true, false⟩ 0
        [⟨"app-9.log", 9⟩, ⟨"app-8.log", 8⟩]).1 ∧
    (⟨"app-8.log", 8⟩ : LogInfo) ∈ (millMarks ⟨"app.log", 1, 1, 0, "", true, false⟩ 0
        [⟨"app-9.log", 9⟩, ⟨"app-8.log", 8⟩]).2 := by
  decide

/-- Claim C5 (code bug): with only a maximum backup count configured
(max size 0, max age 0, compression off) and two logical backups exceeding the
count of 1, the maintenance pass marks nothing for removal and nothing for
compression — the skip guard tests `MaxSize` instead of `MaxBackUps` — so both
backups survive the pass. -/
theorem maxBackUps_alone_marks_nothing :
    millMarks ⟨"app.log", 1, 0, 0, "", false, false⟩ 0 [⟨"app-9.log", 9⟩, ⟨"app-8.log", 8⟩]
      = ([], []) ∧
    millExecFiles [⟨"app-9.log", 9⟩, ⟨"app-8.log", 8⟩] [] []
      = [⟨"app-9.log", 9⟩, ⟨"app-8.log", 8⟩] := by
  decide

/-- Claim C9 (code bug): `dir()` is the directory of the raw `Filename`
field; with the base path unset it is `"."` while the active file lives in the
temp directory, so the maintenance pass scans a directory different from the
one holding the active file.  With the base path set the two agree. -/
theorem dir_misses_derived_filename :
    RotateLog.dir ⟨"", 0, 0, 0, "", false, false⟩ = "." ∧
    filepathDir (filename "" ⟨"app", "/tmp"⟩) = "/tmp" ∧
    RotateLog.dir ⟨"", 0, 0, 0, "", false, false⟩
      ≠ filepathDir (filename "" ⟨"app", "/tmp"⟩) ∧
    RotateLog.dir ⟨"/var/log/app.log", 0, 0, 0, "", false, false⟩
      = filepathDir (filename "/var/log/app.log" ⟨"app", "/tmp"⟩) := by
  decide

theorem runOps_spec (res : String → Option String) (names : List String)
    (e : Option String) (done : List String) :
    runOps res (e, done) names
      = (List.foldl accErr e (names.map res), done ++ names) := by
  induction names generalizing e done with
  | nil => simp [runOps]
  | cons n t ih =>
    show runOps res (accErr e (res n), done ++ [n]) t = _
    rw [ih]
    simp

theorem foldl_accErr_some (x : String) (l : List (Option String)) :
    List.foldl accErr (some x) l = some x := by
  induction l with
  | nil => rfl
  | cons a t ih => simpa [accErr] using ih

/-- First error in a sequence of operation outcomes (the spec-side notion the
amended C7 compares against). -/
def firstError : List (Option String) → Option String
  | [] => none
  | none :: t => firstError t
  | some x :: _ => some x

theorem foldl_accErr_eq_firstError (l : List (Option String)) :
    List.foldl accErr none l = firstError l := by
  induction l with
  | nil => rfl
  | cons a t ih =>
    cases a with
    | none => simpa [accErr, firstError] using ih
    | some x => simp [accErr, firstError, foldl_accErr_some]

/-- Claim C7 (amended): a maintenance pass attempts all removals and then all
compressions — errors from individual operations never abort the batch — and
it returns the first error encountered, or no error if every operation
succeeded. -/
theorem millExec_attempts_all_returns_first_error
    (removeRes compressRes : String → Option String) (remove compress : List String) :
    (millExec removeRes compressRes remove compress).2 = remove ++ compress ∧
    (millExec removeRes compressRes remove compress).1
      = firstError (remove.map removeRes ++ compress.map compressRes) := by
  have he : millExec removeRes compressRes remove compress
      = (firstError (remove.map removeRes ++ compress.map compressRes), remove ++ compress) := by
    unfold millExec
    rw [runOps_spec, runOps_spec]
    rw [← List.foldl_append, foldl_accErr_eq_firstError]
    simp
  rw [he]
  exact ⟨rfl, rfl⟩

def removeResC7 : String → Option String := fun n =>
  if n = "a" then some "e1" else if n = "b" then some "e2" else none

/-- Counterexample to C7 as stated: with two failing removals whose errors
differ, the pass returns the first error, not the last one encountered. -/
theorem millExec_returns_first_not_last :
    (millExec removeResC7 (fun _ => none) ["a", "b"] []).1 = some "e1" ∧
    removeResC7 "b" = some "e2" ∧
    some ("e1" : String) ≠ some "e2" := by
  decide

/-- Claim C6: with a maximum age configured, every recognized backup strictly
older than now minus the age is marked for removal, independently of the
count-based marking; with the count rule disabled the marks are exactly the
stale backups; and no backup older than the cutoff survives the pass (removal
by name, plus the compressed siblings the pass creates). -/
theorem millMarks_age_eviction (r : RotateLog) (now : Int) (files : List LogInfo)
    (hA : 0 < r.MaxAge) :
    (∀ f ∈ files, f.timestamp < now - 24 * nsHour * (r.MaxAge : Int) →
        f ∈ (millMarks r now files).1) ∧
    (r.MaxBackUps = 0 →
        (millMarks r now files).1
          = files.filter (fun f => decide (f.timestamp < now - 24 * nsHour * (r.MaxAge : Int)))) ∧
    (∀ g ∈ millExecFiles files (millMarks r now files).1 (millMarks r now files).2,
        ¬ g.timestamp < now - 24 * nsHour * (r.MaxAge : Int)) := by
  have hg : ¬ (r.MaxSize = 0 ∧ r.MaxAge = 0 ∧ r.Compress = false) := by
    rintro ⟨-, h2, -⟩
    omega
  have hmm : millMarks r now files
      = ((if 0 < r.MaxBackUps ∧ r.MaxBackUps < files.length then
            (files.foldl (countStep r.MaxBackUps) ([], [], [])).2.1 else [])
          ++ files.filter (fun f => decide (f.timestamp < now - 24 * nsHour * (r.MaxAge : Int))),
         if r.Compress then
           (files.filter (fun f => !decide (f.timestamp < now - 24 * nsHour * (r.MaxAge : Int)))).filter
             (fun f => !strEndsWith f.name compressSuffix)
         else []) := by
    simp only [millMarks, if_neg hg, if_pos hA]
  refine ⟨?_, ?_, ?_⟩
  · intro f hf hold
    rw [hmm]
    exact List.mem_append_right _ (List.mem_filter.mpr ⟨hf, by simpa using hold⟩)
  · intro h0
    rw [hmm]
    have : ¬ (0 < r.MaxBackUps ∧ r.MaxBackUps < files.length) := by omega
    rw [if_neg this, List.nil_append]
  · intro g hgmem
    rw [hmm] at hgmem
    unfold millExecFiles at hgmem
    rcases List.mem_append.mp hgmem with hkept | hmapped
    · rcases List.mem_filter.mp hkept with ⟨hgf, hpred⟩
      intro hold
      have hin : g ∈ (if 0 < r.MaxBackUps ∧ r.MaxBackUps < files.length then
            (files.foldl (countStep r.MaxBackUps) ([], [], [])).2.1 else [])
          ++ files.filter (fun f => decide (f.timestamp < now - 24 * nsHour * (r.MaxAge : Int))) :=
        List.mem_append_right _ (List.mem_filter.mpr ⟨hgf, by simpa using hold⟩)
      have : ((if 0 < r.MaxBackUps ∧ r.MaxBackUps < files.length then
            (files.foldl (countStep r.MaxBackUps) ([], [], [])).2.1 else [])
          ++ files.filter (fun f => decide (f.timestamp < now - 24 * nsHour * (r.MaxAge : Int)))).any
            (fun x => x.name == g.name) = true := by
        exact List.any_eq_true.mpr ⟨g, hin, by simp⟩
      simp [this] at hpred
    · rcases List.mem_map.mp hmapped with ⟨f, hfmem, hge⟩
      rcases List.mem_filter.mp hfmem with ⟨hfc, -⟩
      by_cases hcp : r.Compress
      · rw [if_pos hcp] at hfc
        rcases List.mem_filter.mp hfc with ⟨hf1, -⟩
        rcases List.mem_filter.mp hf1 with ⟨-, hnotold⟩
        have : ¬ f.timestamp < now - 24 * nsHour * (r.MaxAge : Int) := by
          simpa using hnotold
        rw [← hge]
        simpa using this
      · rw [if_neg hcp] at hfc
        simp at hfc

/-- Witness for C6: a backup with timestamp older than the one-day cutoff is
marked for removal. -/
theorem millMarks_age_eviction_witness :
    (⟨"app-1.log", 0⟩ : LogInfo) ∈ (millMarks ⟨"app.log", 0, 0, 1, "", false, false⟩
        100000000000000 [⟨"app-1.log", 0⟩]).1 :=
  (millMarks_age_eviction ⟨"app.log", 0, 0, 1, "", false, false⟩ 100000000000000
      [⟨"app-1.log", 0⟩] (by decide)).1 ⟨"app-1.log", 0⟩ (by decide) (by decide)

end Glog
